import Mathlib

/-! Verification model of the `nx-request-handler` request/response engine
(`src/lib.rs`, `src/message.rs`).

Strings are modelled at character granularity as `List Char` (the source
slices and measures `&str` data; for the ASCII payloads involved the byte
positions used by the source coincide with character positions).  Code that
can panic at runtime (out-of-range slicing, `unwrap()` on `None`) is
modelled with an explicit panic flag: an operation returns the data it
produced before the panic together with a `Bool` that is `true` when the
corresponding Rust code would panic.
-/

namespace NxRequestHandler

/-- Rust `&str` contents, modelled as a list of characters. -/
abbrev Str := List Char

/-- The `CHUNK_SIZE` constant, `message.rs` line 113. -/
def CHUNK_SIZE : Nat := 25000

/-- Rust `str::replace` for a single-character pattern: every occurrence of
the character `c` is replaced by the string `r`.  Each of the five
`replace` calls in `MessageContext::return_result` (`message.rs` line 78)
has a single-character pattern, for which `str::replace` acts
character-wise. -/
def replaceChar (c : Char) (r : Str) (s : Str) : Str :=
  s.flatMap (fun x => if x = c then r else [x])

/-- The escaping pipeline of `message.rs` line 78, applied in source order:
remove `\r`, remove NUL, double backslashes, escape double quotes, expand
tabs to four spaces. -/
def cleanMessage (s : Str) : Str :=
  replaceChar '\t' [' ', ' ', ' ', ' ']
    (replaceChar '\"' ['\\', '\"']
      (replaceChar '\\' ['\\', '\\']
        (replaceChar '\x00' []
          (replaceChar '\r' [] s))))

/-- Whitespace predicate used by Rust `str::trim` (ASCII portion of the
Unicode `White_Space` class, which covers every character producible
here). -/
def isRustWhitespace (c : Char) : Bool :=
  c = ' ' || c = '\t' || c = '\n' || c = '\r' || c = '\x0b' || c = '\x0c'

/-- Rust `str::trim` (`message.rs` line 79): drop leading and trailing
whitespace. -/
def trimStr (s : Str) : Str :=
  ((s.dropWhile isRustWhitespace).reverse.dropWhile isRustWhitespace).reverse

/-- Modelled from the spec: the outbound call-result wire envelope
`{id, ok, message, more}`.  The struct itself lives in `response.rs`,
which is not part of the available sources; its four fields are fixed by
the construction site in `message.rs` lines 93-95 and by §3/§6 of the
specification. -/
structure OkOrErrorResponse where
  id : Str
  ok : Bool
  message : Str
  more : Bool
deriving DecidableEq, Repr

/-- The boundary-extension loop of `message.rs` lines 87-91:

```rust
let chars = slice.chars();
while slice.len() > 5 && (chars.nth_back(0).unwrap() == '\\'
                          || chars.nth_back(0).unwrap() == '\\') {
    end_index = end_index + 1;
    slice = &message[index..end_index];
}
```

`rear` is the state of the `chars` iterator, holding the not yet consumed
characters of the *initial* slice in back-to-front order (the iterator is
created once, before the loop, from `&message[index..end_index]`, and is
never re-created when `slice` is reassigned; each `nth_back(0)` removes
one character from its back).  `e` is `end_index`.  The result is the
final `end_index` together with the panic flag; a panic occurs when
`end_index + 1` runs past the end of `message` (out-of-range slice of
`&message[index..end_index]`) or when `nth_back` exhausts the iterator and
`unwrap()` is applied to `None`.  The `slice.len() > 5` guard re-reads the
current slice, whose length is `e - index`. -/
def extendLoop (total index : Nat) : Str → Nat → Nat × Bool
  | [], e =>
    if 5 < e - index then (e, true) else (e, false)
  | [c1], e =>
    if 5 < e - index then
      if c1 = '\\' then
        if total < e + 1 then (e + 1, true) else extendLoop total index [] (e + 1)
      else (e, true)
    else (e, false)
  | c1 :: c2 :: r, e =>
    if 5 < e - index then
      if c1 = '\\' then
        if total < e + 1 then (e + 1, true) else extendLoop total index (c2 :: r) (e + 1)
      else
        if c2 = '\\' then
          if total < e + 1 then (e + 1, true) else extendLoop total index r (e + 1)
        else (e, false)
    else (e, false)

/-- The candidate chunk boundary `(index + CHUNK_SIZE).min(total_length)`
(`message.rs` line 85). -/
def candidateEnd (index total : Nat) : Nat := min (index + CHUNK_SIZE) total

/-- One run of the boundary-extension loop for the chunk starting at
`index`: the iterator is created from the initial slice
`&message[index..end_index]` and `extendLoop` is entered with
`end_index = candidateEnd`.  Result: final `end_index` and panic flag. -/
def boundary (message : Str) (total index : Nat) : Nat × Bool :=
  extendLoop total index
    (((message.drop index).take (candidateEnd index total - index)).reverse)
    (candidateEnd index total)

/-- The chunking loop of `message.rs` lines 84-104 (`while index <
total_length`).  `fuel` is a structural-recursion bound; every iteration
strictly increases `index`, so any `fuel > total - index` suffices and the
`fuel = 0` branch is unreachable from `return_result`
(`chunkLoop_fuel_irrel`).  Returns the chunks handed to `session.send`, in
order, and the panic flag. -/
def chunkLoop (id : Str) (isOk : Bool) (message : Str) (total : Nat) :
    Nat → Nat → List OkOrErrorResponse × Bool
  | 0, _ => ([], true)
  | fuel + 1, index =>
    if index < total then
      let r := boundary message total index
      if r.2 then ([], true)
      else
        let slice := (message.drop index).take (r.1 - index)
        let rest := chunkLoop id isOk message total fuel r.1
        (⟨id, isOk, slice, decide (r.1 < total)⟩ :: rest.1, rest.2)
    else ([], false)

/-- Model of `MessageContext::return_result` (`message.rs` lines 77-105): escape and
trim the result text, then send it in chunks.  Returns the envelopes sent,
in transmitted order, and the panic flag. -/
def MessageContext.return_result (id : Str) (origMessage : Str) (isOk : Bool) :
    List OkOrErrorResponse × Bool :=
  let message := trimStr (cleanMessage origMessage)
  let total := message.length
  chunkLoop id isOk message total (total + 1) 0

/-- Model of `Progress` (`lib.rs` lines 12-18).  The Rust `progress` field is an
`f64`; it is modelled as a rational number, which captures the ordering
behaviour of `f64::max`/`f64::min` on the (finite) values involved. -/
structure Progress where
  title : Str
  info : Str
  progress : ℚ
deriving DecidableEq, Repr

/-- Model of `Progress::new` (`lib.rs` lines 20-24): stores
`progress.max(0.0).min(1.0)`. -/
def Progress.new (title info : Str) (progress : ℚ) : Progress :=
  ⟨title, info, min (max progress 0) 1⟩

/-- Inbound `Message` (`message.rs` lines 10-19). -/
structure Message where
  id : Str
  call_name : Str
  arguments : Option (List Str)
deriving DecidableEq, Repr

/-- Side effects performed on the `WebSession` by
`MessageContext::shutdown` (`message.rs` lines 52-56). -/
inductive SessionEvent where
  | exit
  | waitForExit
deriving DecidableEq, Repr

/-- Model of `MessageContext` (`message.rs` lines 30-42): the per-call handle given
to handlers.  The borrowed `session` reference is not part of the state;
its uses are modelled as events/sends. -/
structure MessageContext where
  id : Str
  call_name : Str
  arguments : Option (List Str)
  is_shutdown : Bool
deriving DecidableEq, Repr

/-- Model of `MessageContext::build` (`message.rs` lines 46-48). -/
def MessageContext.build (message : Message) : MessageContext :=
  ⟨message.id, message.call_name, message.arguments, false⟩

/-- Model of `MessageContext::shutdown` (`message.rs` lines 52-56):
`session.exit()`, then `session.wait_for_exit()`, then set the
`is_shutdown` flag.  Returns the updated context and the session events in
the order they are performed before `shutdown()` returns. -/
def MessageContext.shutdown (ctx : MessageContext) :
    MessageContext × List SessionEvent :=
  ({ ctx with is_shutdown := true }, [SessionEvent.exit, SessionEvent.waitForExit])

/-- The `Result<String, String>` returned by a handler callback. -/
inductive HandlerResult where
  | ok (s : Str)
  | err (s : Str)
deriving DecidableEq, Repr

/-- Model of `Handler` (`lib.rs` lines 34-38).  The boxed
`Fn(&mut MessageContext) -> Result<String, String>` callback is modelled
as a pure state transformer on the context (progress side-sends performed
by a handler are outside the dispatch logic modelled here). -/
structure Handler where
  call_name : Str
  arg_count : Option Nat
  callback : MessageContext → MessageContext × HandlerResult

/-- One payload received by `session.recv_max` in the dispatch loop,
abstracted over the external `serde_json` parser: either it deserializes
to a `Message` or it is malformed (with its raw text). -/
inductive Inbound where
  | malformed (raw : Str)
  | parsed (m : Message)

/-- How one iteration of the `start()` loop body ends. -/
inductive IterOutcome where
  | continueLoop
  | returned
  | panicked
deriving DecidableEq, Repr

/-- Observable effects of one iteration of the `start()` loop body:
the envelopes sent, the (possibly truncated) text logged for a malformed
payload, whether the registered callback was run, and how the iteration
ended. -/
structure IterResult where
  sends : List OkOrErrorResponse
  loggedMalformed : Option Str
  invoked : Bool
  outcome : IterOutcome
deriving DecidableEq, Repr

/-- Truncation of the logged text of a malformed payload
(`lib.rs` lines 131-134): payloads of length at most 300 are logged whole,
longer ones as their first 299 characters plus a marker. -/
def truncateLog (msg : Str) : Str :=
  if msg.length ≤ 300 then msg
  else msg.take 299 ++ (" <truncated for performance>").toList

/-- Running the registered callback and finishing the call
(`lib.rs` lines 168-180): invoke the callback, then either return from
`start()` (shutdown flag set, nothing further sent) or send the ok/error
result. -/
def runCallback (handler : Handler) (ctx : MessageContext) : IterResult :=
  let r := handler.callback ctx
  if r.1.is_shutdown then
    ⟨[], none, true, IterOutcome.returned⟩
  else
    match r.2 with
    | HandlerResult.ok res =>
      let s := MessageContext.return_result r.1.id res true
      ⟨s.1, none, true, if s.2 then IterOutcome.panicked else IterOutcome.continueLoop⟩
    | HandlerResult.err err =>
      let s := MessageContext.return_result r.1.id err false
      ⟨s.1, none, true, if s.2 then IterOutcome.panicked else IterOutcome.continueLoop⟩

/-- One iteration of the dispatch loop body of `RequestEngine::start`
(`lib.rs` lines 123-183), for one received payload: parse, look up the
handler, validate the argument count, run the callback, respond.
`handlers` is the lookup view of the registry (`self.handlers`). -/
def dispatchIter (handlers : Str → Option Handler) (inb : Inbound) : IterResult :=
  match inb with
  | Inbound.malformed raw =>
    ⟨[], some (truncateLog raw), false, IterOutcome.continueLoop⟩
  | Inbound.parsed message =>
    match handlers message.call_name with
    | none => ⟨[], none, false, IterOutcome.continueLoop⟩
    | some handler =>
      let ctx := MessageContext.build message
      match handler.arg_count with
      | some count =>
        match ctx.arguments with
        | some args =>
          if args.length ≠ count then
            let error :=
              ("Incorrect number of arguments were provided for ").toList ++
                message.call_name
            let s := MessageContext.return_result ctx.id error false
            ⟨s.1, none, false, if s.2 then IterOutcome.panicked else IterOutcome.continueLoop⟩
          else runCallback handler ctx
        | none =>
          let error :=
            ("No arguments were provided for ").toList ++ message.call_name
          let s := MessageContext.return_result ctx.id error false
          ⟨s.1, none, false, if s.2 then IterOutcome.panicked else IterOutcome.continueLoop⟩
      | none => runCallback handler ctx

/-- How a run of `RequestEngine::start` (`lib.rs` lines 121-185) ends.
`stillListening` stands for the loop blocking on the next receive: the
`is_exit` field tested by `while !self.is_exit` is initialized to `false`
(`lib.rs` line 44) and never written, so the loop never exits through its
condition. -/
inductive LoopExit where
  | stillListening
  | returnedNormally
  | panickedOut
deriving DecidableEq, Repr

/-- Model of `RequestEngine::start` over a sequence of received payloads: iterate
`dispatchIter`, accumulating sent envelopes, until an iteration returns
(the shutdown path) or panics. -/
def startRun (handlers : Str → Option Handler) :
    List Inbound → List OkOrErrorResponse × LoopExit
  | [] => ([], LoopExit.stillListening)
  | inb :: rest =>
    let r := dispatchIter handlers inb
    match r.outcome with
    | IterOutcome.continueLoop =>
      let s := startRun handlers rest
      (r.sends ++ s.1, s.2)
    | IterOutcome.returned => (r.sends, LoopExit.returnedNormally)
    | IterOutcome.panicked => (r.sends, LoopExit.panickedOut)


/-! Specification-side definitions used to state the claims, and concrete
fixtures used to instantiate or refute them. -/

/-- The decoder for the escaping of `cleanMessage`, as the spec's round-trip
property uses it ("reversing the escaping"): each backslash-led pair
decodes to its second character. -/
def unescape : Str → Str
  | [] => []
  | '\\' :: c :: rest => c :: unescape rest
  | c :: rest => c :: unescape rest

/-- Concatenation of the `message` fields of a chunk sequence, in
transmitted order. -/
def concatMessages (cs : List OkOrErrorResponse) : Str :=
  cs.flatMap (fun c => c.message)

/-- The lengths of the `message` fields of a chunk sequence. -/
def chunkLengths (cs : List OkOrErrorResponse) : List Nat :=
  cs.map (fun c => c.message.length)

/-- Every chunk's `message` field is at most `n` characters long. -/
def allChunksWithin (cs : List OkOrErrorResponse) (n : Nat) : Prop :=
  ∀ c ∈ cs, c.message.length ≤ n

/-- The `more` flag is `true` on every chunk except exactly the last,
which carries `false` (allowing the empty sequence). -/
def moresTrueExceptLast (cs : List OkOrErrorResponse) : Prop :=
  cs = [] ∨
  ∃ k, cs.map (fun c => c.more) = List.replicate k true ++ [false]

/-- The payload text of a handler result (both `Ok` and `Err` carry a
string). -/
def HandlerResult.text : HandlerResult → Str
  | HandlerResult.ok s => s
  | HandlerResult.err s => s

/-- Whether a handler result is the `Ok` variant. -/
def isOkResult : HandlerResult → Bool
  | HandlerResult.ok _ => true
  | HandlerResult.err _ => false

/-- The `echo` handler of the spec's end-to-end scenarios: expects one
argument and returns it. -/
def echoHandler : Handler :=
  ⟨("echo").toList, some 1,
    fun ctx =>
      (ctx, HandlerResult.ok (match ctx.arguments with
        | some (a :: _) => a
        | _ => []))⟩

/-- A registry holding only `echo`. -/
def echoHandlers : Str → Option Handler :=
  fun n => if n = ("echo").toList then some echoHandler else none

/-- The spec's first end-to-end scenario message. -/
def echoOkMsg : Message := ⟨['1'], ("echo").toList, some [("hi").toList]⟩

/-- The spec's second end-to-end scenario message (empty argument list). -/
def echoBadMsg : Message := ⟨['2'], ("echo").toList, some []⟩

/-- A handler with no argument-count constraint whose callback returns a
result of three consecutive backslashes. -/
def bsHandler : Handler :=
  ⟨['f'], none, fun ctx => (ctx, HandlerResult.ok (List.replicate 3 '\\'))⟩

/-- A registry holding only `bsHandler`. -/
def bsHandlers : Str → Option Handler :=
  fun n => if n = ['f'] then some bsHandler else none

/-- A well-formed request for `bsHandler`. -/
def bsMsg : Message := ⟨['9'], ['f'], none⟩

/-- A registered handler whose call name ends in a backslash and expects
one argument. -/
def bsNameHandler : Handler :=
  ⟨['e', '\\'], some 1, fun ctx => (ctx, HandlerResult.ok ['y'])⟩

/-- A registry holding only `bsNameHandler`. -/
def bsNameHandlers : Str → Option Handler :=
  fun n => if n = ['e', '\\'] then some bsNameHandler else none

/-- A request for `bsNameHandler` carrying an argument list of the wrong
length. -/
def bsNameMsg : Message := ⟨['3'], ['e', '\\'], some []⟩

/-- A handler returning the empty string as its result. -/
def emptyResultHandler : Handler :=
  ⟨['g'], none, fun ctx => (ctx, HandlerResult.ok [])⟩

/-- A context for a call to `emptyResultHandler`. -/
def emptyResultCtx : MessageContext := ⟨['4'], ['g'], none, false⟩

/-- A handler that calls `shutdown()` on its context. -/
def shutHandler : Handler :=
  ⟨['s'], none, fun ctx => ((MessageContext.shutdown ctx).1, HandlerResult.ok [])⟩

/-- A registry holding only `shutHandler`. -/
def shutHandlers : Str → Option Handler :=
  fun n => if n = ['s'] then some shutHandler else none

/-- A request for `shutHandler`. -/
def shutMsg : Message := ⟨['7'], ['s'], none⟩

/-- Handler-result string refuting the nominal chunk-size bound: 24998
`a`s, one backslash, ten `b`s.  Its escaped form puts a doubled backslash
just before the 25000-character candidate boundary. -/
def c6Input : Str :=
  List.replicate 24998 'a' ++ ['\\'] ++ List.replicate 10 'b'

/-- Handler-result string whose escaped form is 25000 `a`s followed by six
backslashes: the first chunk is sent with `more = true` and the encoder
then panics. -/
def c8Input : Str :=
  List.replicate 25000 'a' ++ List.replicate 3 '\\'

/-- The escaped-and-trimmed form of `c6Input`. -/
def c6Escaped : Str :=
  (List.replicate 24998 'a' ++ ['\\', '\\']) ++ List.replicate 10 'b'

/-! General facts about the boundary-extension and chunking loops. -/

/-- The extension loop never moves the boundary backwards. -/
theorem extendLoop_ge (total index : Nat) :
    ∀ (rear : Str) (e : Nat), e ≤ (extendLoop total index rear e).1
  | [], e => by
    simp only [extendLoop]
    split <;> simp
  | [c1], e => by
    simp only [extendLoop]
    split
    · split
      · split
        · simp
        · exact Nat.le_trans (Nat.le_succ e) (extendLoop_ge total index [] (e + 1))
      · simp
    · simp
  | c1 :: c2 :: r, e => by
    simp only [extendLoop]
    split
    · split
      · split
        · simp
        · exact Nat.le_trans (Nat.le_succ e) (extendLoop_ge total index (c2 :: r) (e + 1))
      · split
        · split
          · simp
          · exact Nat.le_trans (Nat.le_succ e) (extendLoop_ge total index r (e + 1))
        · simp
    · simp

/-- If the extension loop finishes without panicking, the boundary does not
run past the end of the message. -/
theorem extendLoop_le_total (total index : Nat) :
    ∀ (rear : Str) (e : Nat), e ≤ total →
      (extendLoop total index rear e).2 = false →
      (extendLoop total index rear e).1 ≤ total
  | [], e => by
    intro he _
    simp only [extendLoop]
    split <;> simpa
  | [c1], e => by
    intro he hp
    simp only [extendLoop] at hp ⊢
    split at hp
    · split at hp
      · split at hp
        · simp at hp
        · next h1 h2 h3 =>
          rw [if_pos h1, if_pos h2, if_neg h3]
          exact extendLoop_le_total total index [] (e + 1) (by omega) hp
      · simp at hp
    · next h1 =>
      rw [if_neg h1]
      exact he
  | c1 :: c2 :: r, e => by
    intro he hp
    simp only [extendLoop] at hp ⊢
    split at hp
    · split at hp
      · split at hp
        · simp at hp
        · next h1 h2 h3 =>
          rw [if_pos h1, if_pos h2, if_neg h3]
          exact extendLoop_le_total total index (c2 :: r) (e + 1) (by omega) hp
      · split at hp
        · split at hp
          · simp at hp
          · next h1 h2 h4 h3 =>
            rw [if_pos h1, if_neg h2, if_pos h4, if_neg h3]
            exact extendLoop_le_total total index r (e + 1) (by omega) hp
        · next h1 h2 h4 =>
          rw [if_pos h1, if_neg h2, if_neg h4]
          exact he
    · next h1 =>
      rw [if_neg h1]
      exact he

/-- Each extension step consumes at least one character of the iterator, so
the boundary grows by at most the length of the initial slice. -/
theorem extendLoop_bound (total index : Nat) :
    ∀ (rear : Str) (e : Nat), (extendLoop total index rear e).1 ≤ e + rear.length
  | [], e => by
    simp only [extendLoop]
    split <;> simp
  | [c1], e => by
    simp only [extendLoop]
    split
    · split
      · split
        · simp
        · exact Nat.le_trans (extendLoop_bound total index [] (e + 1)) (by simp)
      · simp
    · simp
  | c1 :: c2 :: r, e => by
    simp only [extendLoop]
    split
    · split
      · split
        · simp
        · refine Nat.le_trans (extendLoop_bound total index (c2 :: r) (e + 1)) ?_
          simp only [List.length_cons]
          omega
      · split
        · split
          · simp only [List.length_cons]
            omega
          · refine Nat.le_trans (extendLoop_bound total index r (e + 1)) ?_
            simp only [List.length_cons]
            omega
        · simp
    · simp

/-- The resolved boundary lies strictly beyond the chunk start. -/
theorem boundary_gt_index (message : Str) (total index : Nat) (h : index < total) :
    index < (boundary message total index).1 := by
  have h1 : index < candidateEnd index total := by
    unfold candidateEnd
    have : 0 < CHUNK_SIZE := by decide
    omega
  exact Nat.lt_of_lt_of_le h1 (extendLoop_ge total index _ _)

/-- Without a panic, the resolved boundary stays within the message. -/
theorem boundary_le_total (message : Str) (total index : Nat)
    (h : (boundary message total index).2 = false) :
    (boundary message total index).1 ≤ total := by
  refine extendLoop_le_total total index _ _ ?_ h
  unfold candidateEnd
  omega

/-- The resolved boundary exceeds the candidate boundary by at most the
initial slice length, hence `r.1 - index ≤ 2 * CHUNK_SIZE`. -/
theorem boundary_bound (message : Str) (total index : Nat) :
    (boundary message total index).1 ≤ index + 2 * CHUNK_SIZE := by
  have h1 := extendLoop_bound total index
    (((message.drop index).take (candidateEnd index total - index)).reverse)
    (candidateEnd index total)
  have h2 : (((message.drop index).take (candidateEnd index total - index)).reverse).length
      ≤ CHUNK_SIZE := by
    rw [List.length_reverse]
    refine Nat.le_trans (List.length_take_le _ _) ?_
    unfold candidateEnd
    omega
  have h3 : candidateEnd index total ≤ index + CHUNK_SIZE := by
    unfold candidateEnd
    omega
  unfold boundary
  omega

/-- The chunking loop's result does not depend on the fuel, as long as the
fuel exceeds the number of remaining positions; in particular the
`fuel = 0` branch is unreachable from `return_result`. -/
theorem chunkLoop_fuel_irrel (id : Str) (isOk : Bool) (message : Str) (total : Nat) :
    ∀ fuel₁ fuel₂ index, total - index < fuel₁ → total - index < fuel₂ →
      chunkLoop id isOk message total fuel₁ index =
        chunkLoop id isOk message total fuel₂ index := by
  intro fuel₁
  induction fuel₁ with
  | zero => omega
  | succ f₁ ih =>
    intro fuel₂ index h1 h2
    match fuel₂, h2 with
    | f₂ + 1, h2 =>
      simp only [chunkLoop]
      split
      · next hlt =>
        split
        · rfl
        · next hb =>
          have hgt := boundary_gt_index message total index hlt
          rw [ih f₂ (boundary message total index).1 (by omega) (by omega)]
      · rfl

/-- Without a panic, the chunk sequence for a chunk start strictly inside
the message is nonempty. -/
theorem chunkLoop_ne_nil (id : Str) (isOk : Bool) (message : Str) (total : Nat)
    (fuel index : Nat) (h : index < total)
    (hp : (chunkLoop id isOk message total fuel index).2 = false) :
    (chunkLoop id isOk message total fuel index).1 ≠ [] := by
  match fuel with
  | 0 => simp [chunkLoop] at hp
  | f + 1 =>
    simp only [chunkLoop] at hp ⊢
    rw [if_pos h] at hp ⊢
    split at hp
    · simp_all
    · simp_all

/-- Without a panic, the `more` flags of the produced chunks are `true` on
every chunk except the last, which carries `false`. -/
theorem chunkLoop_mores (id : Str) (isOk : Bool) (message : Str) (total : Nat) :
    ∀ fuel index, index < total →
      (chunkLoop id isOk message total fuel index).2 = false →
      ∃ k, (chunkLoop id isOk message total fuel index).1.map (fun c => c.more) =
        List.replicate k true ++ [false] := by
  intro fuel
  induction fuel with
  | zero => intro index _ hp; simp [chunkLoop] at hp
  | succ f ih =>
    intro index hlt hp
    simp only [chunkLoop] at hp ⊢
    rw [if_pos hlt] at hp ⊢
    split at hp
    · simp_all
    · next hb =>
      simp only at hp ⊢
      by_cases hnext : (boundary message total index).1 < total
      · obtain ⟨k, hk⟩ := ih (boundary message total index).1 hnext hp
        exact ⟨k + 1, by simp [hb, hk, hnext, List.replicate_succ]⟩
      · refine ⟨0, ?_⟩
        have hrest : chunkLoop id isOk message total f (boundary message total index).1 =
            ([], false) := by
          match f with
          | 0 => simp [chunkLoop] at hp
          | f' + 1 => simp [chunkLoop, hnext]
        simp [hb, hrest, hnext]

/-- No produced chunk is longer than twice `CHUNK_SIZE`. -/
theorem chunkLoop_chunk_len (id : Str) (isOk : Bool) (message : Str) (total : Nat) :
    ∀ fuel index c, c ∈ (chunkLoop id isOk message total fuel index).1 →
      c.message.length ≤ 2 * CHUNK_SIZE := by
  intro fuel
  induction fuel with
  | zero => intro index c hc; simp [chunkLoop] at hc
  | succ f ih =>
    intro index c hc
    simp only [chunkLoop] at hc
    split at hc
    · next hlt =>
      split at hc
      · simp at hc
      · simp only [List.mem_cons] at hc
        rcases hc with hc | hc
        · subst hc
          simp only
          refine Nat.le_trans (List.length_take_le _ _) ?_
          have := boundary_bound message total index
          omega
        · exact ih _ c hc
    · simp at hc

/-- Every chunk carries the `ok` flag it was sent with. -/
theorem chunkLoop_ok_flag (id : Str) (isOk : Bool) (message : Str) (total : Nat) :
    ∀ fuel index c, c ∈ (chunkLoop id isOk message total fuel index).1 →
      c.ok = isOk := by
  intro fuel
  induction fuel with
  | zero => intro index c hc; simp [chunkLoop] at hc
  | succ f ih =>
    intro index c hc
    simp only [chunkLoop] at hc
    split at hc
    · split at hc
      · simp at hc
      · simp only [List.mem_cons] at hc
        rcases hc with hc | hc
        · subst hc; rfl
        · exact ih _ c hc
    · simp at hc

/-- The `dropWhile` function is the identity on a list whose head does not satisfy the
predicate (in particular on a list with no satisfying element). -/
theorem dropWhile_eq_self_of_forall (p : Char → Bool) (l : Str)
    (h : ∀ c ∈ l, p c = false) : l.dropWhile p = l := by
  cases l with
  | nil => rfl
  | cons a t =>
    rw [List.dropWhile_cons, h a (List.mem_cons_self a t)]
    simp

/-- An element that fails the predicate survives `dropWhile`. -/
theorem mem_dropWhile_of_neg (p : Char → Bool) (c : Char) :
    ∀ l : Str, c ∈ l → p c = false → c ∈ l.dropWhile p := by
  intro l
  induction l with
  | nil => intro hc; simp at hc
  | cons a t ih =>
    intro hc hpc
    rw [List.dropWhile_cons]
    by_cases hpa : p a = true
    · rw [if_pos hpa]
      rcases List.mem_cons.1 hc with rfl | hct
      · rw [hpa] at hpc; cases hpc
      · exact ih hct hpc
    · rw [if_neg hpa]
      exact hc

/-- Trimming is the identity on a string with no whitespace at all. -/
theorem trimStr_eq_self (s : Str) (h : ∀ c ∈ s, isRustWhitespace c = false) :
    trimStr s = s := by
  unfold trimStr
  rw [dropWhile_eq_self_of_forall _ _ h,
    dropWhile_eq_self_of_forall _ _ (fun c hc => h c (List.mem_reverse.1 hc)),
    List.reverse_reverse]

/-- A string containing a non-whitespace character does not trim to the
empty string. -/
theorem trimStr_ne_nil (s : Str) (c : Char) (hc : c ∈ s)
    (hw : isRustWhitespace c = false) : trimStr s ≠ [] := by
  intro hnil
  unfold trimStr at hnil
  rw [List.reverse_eq_nil_iff, List.dropWhile_eq_nil_iff] at hnil
  have h1 : c ∈ (s.dropWhile isRustWhitespace).reverse :=
    List.mem_reverse.2 (mem_dropWhile_of_neg _ _ _ hc hw)
  have := hnil c h1
  rw [hw] at this
  cases this

/-- A chunk sequence whose `more` flags are `true`-repeat-then-`false` has
exactly one chunk with `more = false`. -/
theorem countP_not_more (cs : List OkOrErrorResponse) (k : Nat)
    (h : cs.map (fun c => c.more) = List.replicate k true ++ [false]) :
    cs.countP (fun c => !c.more) = 1 := by
  have h1 : cs.countP (fun c => !c.more) =
      (cs.map (fun c => c.more)).countP (fun b => !b) := by
    rw [List.countP_map]
    rfl
  rw [h1, h, List.countP_append]
  have h2 : (List.replicate k true).countP (fun b => !b) = 0 := by
    rw [List.countP_eq_zero]
    intro a ha
    rw [List.eq_of_mem_replicate ha]
    decide
  rw [h2]
  rfl

/-- Fact about `return_result`: without a panic and with a
nonempty escaped text, at least one envelope is produced. -/
theorem return_result_ne_nil (id s : Str) (isOk : Bool)
    (hne : trimStr (cleanMessage s) ≠ [])
    (hp : (MessageContext.return_result id s isOk).2 = false) :
    (MessageContext.return_result id s isOk).1 ≠ [] := by
  unfold MessageContext.return_result at hp ⊢
  exact chunkLoop_ne_nil _ _ _ _ _ _ (List.length_pos.2 hne) hp

/-- Fact about `return_result` without a panic: either nothing was sent (empty
escaped text) or the `more` flags are `true` everywhere except on the last
envelope. -/
theorem return_result_mores (id s : Str) (isOk : Bool)
    (hp : (MessageContext.return_result id s isOk).2 = false) :
    (MessageContext.return_result id s isOk).1 = [] ∨
    ∃ k, (MessageContext.return_result id s isOk).1.map (fun c => c.more) =
      List.replicate k true ++ [false] := by
  unfold MessageContext.return_result at hp ⊢
  by_cases h0 : 0 < (trimStr (cleanMessage s)).length
  · exact Or.inr (chunkLoop_mores _ _ _ _ _ _ h0 hp)
  · left
    have h0' : (trimStr (cleanMessage s)).length = 0 := by omega
    simp [chunkLoop, h0']

/-- Every envelope produced by `return_result` carries the requested `ok`
flag. -/
theorem return_result_ok_flag (id s : Str) (isOk : Bool) :
    ∀ c ∈ (MessageContext.return_result id s isOk).1, c.ok = isOk := by
  intro c hc
  exact chunkLoop_ok_flag _ _ _ _ _ _ c hc

/-- Every envelope produced by `return_result` is within twice
`CHUNK_SIZE`. -/
theorem return_result_within (id s : Str) (isOk : Bool) :
    allChunksWithin (MessageContext.return_result id s isOk).1 (2 * CHUNK_SIZE) := by
  intro c hc
  exact chunkLoop_chunk_len _ _ _ _ _ _ c hc

/-- The callback-running step always records that the callback ran. -/
theorem runCallback_invoked (h : Handler) (ctx : MessageContext) :
    (runCallback h ctx).invoked = true := by
  simp only [runCallback]
  split
  · rfl
  · split <;> rfl

/-- If the callback sets the shutdown flag, the iteration returns from
`start()` with nothing sent. -/
theorem runCallback_shutdown (h : Handler) (ctx : MessageContext)
    (hf : (h.callback ctx).1.is_shutdown = true) :
    runCallback h ctx = ⟨[], none, true, IterOutcome.returned⟩ := by
  simp [runCallback, hf]

/-- If the callback does not set the shutdown flag, the iteration sends the
encoded result. -/
theorem runCallback_sends (h : Handler) (ctx : MessageContext)
    (hf : (h.callback ctx).1.is_shutdown = false) :
    (runCallback h ctx).sends =
      (MessageContext.return_result (h.callback ctx).1.id
        (HandlerResult.text (h.callback ctx).2)
        (isOkResult (h.callback ctx).2)).1 := by
  simp only [runCallback, hf]
  cases hr : (h.callback ctx).2 <;>
    simp [hr, HandlerResult.text, isOkResult]

/-- Outcome of the callback-running step when the callback does not set the
shutdown flag: it panics exactly when the encoder does. -/
theorem runCallback_outcome (h : Handler) (ctx : MessageContext)
    (hf : (h.callback ctx).1.is_shutdown = false) :
    (runCallback h ctx).outcome =
      (if (MessageContext.return_result (h.callback ctx).1.id
          (HandlerResult.text (h.callback ctx).2)
          (isOkResult (h.callback ctx).2)).2
        then IterOutcome.panicked else IterOutcome.continueLoop) := by
  simp only [runCallback, hf]
  cases hr : (h.callback ctx).2 <;>
    simp [hr, HandlerResult.text, isOkResult]

/-- The iteration returns from `start()` only when the callback set the
shutdown flag. -/
theorem runCallback_returned (h : Handler) (ctx : MessageContext)
    (hr : (runCallback h ctx).outcome = IterOutcome.returned) :
    (h.callback ctx).1.is_shutdown = true := by
  by_cases hf : (h.callback ctx).1.is_shutdown = true
  · exact hf
  · rw [runCallback_outcome h ctx (by simpa using hf)] at hr
    split at hr <;> cases hr

/-- Dispatch with a registered handler carrying no argument-count
constraint goes straight to the callback. -/
theorem dispatchIter_no_constraint (handlers : Str → Option Handler)
    (m : Message) (h : Handler) (hreg : handlers m.call_name = some h)
    (hcnt : h.arg_count = none) :
    dispatchIter handlers (Inbound.parsed m) =
      runCallback h (MessageContext.build m) := by
  simp [dispatchIter, hreg, hcnt]

/-- Dispatch with a matching argument count goes to the callback. -/
theorem dispatchIter_valid_args (handlers : Str → Option Handler)
    (m : Message) (h : Handler) (n : Nat) (args : List Str)
    (hreg : handlers m.call_name = some h) (hcnt : h.arg_count = some n)
    (hargs : m.arguments = some args) (hlen : args.length = n) :
    dispatchIter handlers (Inbound.parsed m) =
      runCallback h (MessageContext.build m) := by
  simp [dispatchIter, hreg, hcnt, MessageContext.build, hargs, hlen]

/-- Dispatch with a present argument list of the wrong length encodes the
"Incorrect number of arguments" error and does not run the callback. -/
theorem dispatchIter_wrong_len (handlers : Str → Option Handler)
    (m : Message) (h : Handler) (n : Nat) (args : List Str)
    (hreg : handlers m.call_name = some h) (hcnt : h.arg_count = some n)
    (hargs : m.arguments = some args) (hlen : args.length ≠ n) :
    dispatchIter handlers (Inbound.parsed m) =
      ⟨(MessageContext.return_result m.id
          (("Incorrect number of arguments were provided for ").toList ++
            m.call_name) false).1,
        none, false,
        if (MessageContext.return_result m.id
            (("Incorrect number of arguments were provided for ").toList ++
              m.call_name) false).2
          then IterOutcome.panicked else IterOutcome.continueLoop⟩ := by
  simp [dispatchIter, hreg, hcnt, MessageContext.build, hargs, hlen]

/-- Dispatch with a required argument count but absent arguments encodes
the "No arguments" error and does not run the callback. -/
theorem dispatchIter_absent_args (handlers : Str → Option Handler)
    (m : Message) (h : Handler) (n : Nat)
    (hreg : handlers m.call_name = some h) (hcnt : h.arg_count = some n)
    (hargs : m.arguments = none) :
    dispatchIter handlers (Inbound.parsed m) =
      ⟨(MessageContext.return_result m.id
          (("No arguments were provided for ").toList ++ m.call_name) false).1,
        none, false,
        if (MessageContext.return_result m.id
            (("No arguments were provided for ").toList ++ m.call_name) false).2
          then IterOutcome.panicked else IterOutcome.continueLoop⟩ := by
  simp [dispatchIter, hreg, hcnt, MessageContext.build, hargs]

/-- An iteration ends in `returned` only on the shutdown path: the inbound
payload parsed, its handler was registered, the callback set the shutdown
flag — and nothing was sent in that iteration. -/
theorem dispatchIter_returned (handlers : Str → Option Handler) (inb : Inbound)
    (ho : (dispatchIter handlers inb).outcome = IterOutcome.returned) :
    (dispatchIter handlers inb).sends = [] ∧
    ∃ m hd, inb = Inbound.parsed m ∧ handlers m.call_name = some hd ∧
      (hd.callback (MessageContext.build m)).1.is_shutdown = true := by
  cases inb with
  | malformed raw => simp [dispatchIter] at ho
  | parsed m =>
    cases hreg : handlers m.call_name with
    | none => simp [dispatchIter, hreg] at ho
    | some hd =>
      cases hcnt : hd.arg_count with
      | none =>
        rw [dispatchIter_no_constraint handlers m hd hreg hcnt] at ho ⊢
        have hf := runCallback_returned hd (MessageContext.build m) ho
        rw [runCallback_shutdown hd _ hf]
        exact ⟨rfl, m, hd, rfl, hreg, hf⟩
      | some n =>
        cases hargs : m.arguments with
        | none =>
          rw [dispatchIter_absent_args handlers m hd n hreg hcnt hargs] at ho
          simp only at ho
          split at ho <;> cases ho
        | some args =>
          by_cases hlen : args.length = n
          · rw [dispatchIter_valid_args handlers m hd n args hreg hcnt hargs hlen] at ho ⊢
            have hf := runCallback_returned hd (MessageContext.build m) ho
            rw [runCallback_shutdown hd _ hf]
            exact ⟨rfl, m, hd, rfl, hreg, hf⟩
          · rw [dispatchIter_wrong_len handlers m hd n args hreg hcnt hargs hlen] at ho
            simp only at ho
            split at ho <;> cases ho

/-- The dispatch loop exits normally only when some iteration took the
shutdown path. -/
theorem startRun_returned (handlers : Str → Option Handler) :
    ∀ inbs : List Inbound,
      (startRun handlers inbs).2 = LoopExit.returnedNormally →
      ∃ inb ∈ inbs, (dispatchIter handlers inb).outcome = IterOutcome.returned := by
  intro inbs
  induction inbs with
  | nil => intro h; simp [startRun] at h
  | cons inb rest ih =>
    intro h
    simp only [startRun] at h
    split at h
    · next heq =>
      obtain ⟨i, hi, ho⟩ := ih h
      exact ⟨i, List.mem_cons_of_mem inb hi, ho⟩
    · next heq => exact ⟨inb, List.mem_cons_self inb rest, heq⟩
    · next heq => cases h

/-- Claim C9: every `Progress` constructed through `Progress::new` stores a
fraction clamped into `[0, 1]`, whatever the input; in particular `-0.5`
is stored as `0` and `50` as `1`. -/
theorem claim_C9_progress_clamped (title info : Str) (p : ℚ) :
    0 ≤ (Progress.new title info p).progress ∧
    (Progress.new title info p).progress ≤ 1 ∧
    (Progress.new title info (-(1 / 2))).progress = 0 ∧
    (Progress.new title info 50).progress = 1 := by
  refine ⟨?_, ?_, ?_, ?_⟩
  · exact le_min (le_max_right p 0) zero_le_one
  · exact min_le_right _ 1
  · norm_num [Progress.new]
  · norm_num [Progress.new]

/-- Claim C10: a dispatched message whose registered descriptor records no
argument-count constraint always reaches the handler callback — the whole
iteration is exactly the callback-running step, so no validation error can
be produced. -/
theorem claim_C10_no_constraint_always_invoked
    (handlers : Str → Option Handler) (m : Message) (h : Handler)
    (hreg : handlers m.call_name = some h) (hcnt : h.arg_count = none) :
    dispatchIter handlers (Inbound.parsed m) =
      runCallback h (MessageContext.build m) ∧
    (dispatchIter handlers (Inbound.parsed m)).invoked = true := by
  have hd := dispatchIter_no_constraint handlers m h hreg hcnt
  refine ⟨hd, ?_⟩
  rw [hd]
  exact runCallback_invoked h (MessageContext.build m)

/-- Witness for C10: the three-backslash handler is registered with
`arg_count = None` and is invoked although the message carries no
arguments. -/
theorem claim_C10_witness :
    (dispatchIter bsHandlers (Inbound.parsed bsMsg)).invoked = true :=
  (claim_C10_no_constraint_always_invoked bsHandlers bsMsg bsHandler rfl rfl).2

/-- Claim C1 (code bug): the round-trip property fails on a result string
of three consecutive backslashes — the escaped text is six backslashes,
the boundary-extension loop runs `end_index` past the end of the string,
the slice operation panics, and no chunk at all is transmitted, so
concatenating and unescaping the sent chunks cannot reconstruct the
input. -/
theorem claim_C1_roundtrip_fails :
    MessageContext.return_result ['1'] (List.replicate 3 '\\') true = ([], true) ∧
    unescape (concatMessages
      (MessageContext.return_result ['1'] (List.replicate 3 '\\') true).1) ≠
      List.replicate 3 '\\' := by decide

/-- Claim C5 (code bug): on a result of four backslashes (escaped: eight
backslashes, length above the `> 5` guard) the boundary-extension loop
does not stop at a non-backslash chunk end as the claim describes — there
is no bound on `end_index`, the first extension step moves it past the end
of the message and the encoder panics without producing any chunk. -/
theorem claim_C5_extension_runs_past_end :
    MessageContext.return_result ['5'] (List.replicate 4 '\\') false = ([], true) ∧
    trimStr (cleanMessage (List.replicate 4 '\\')) = List.replicate 8 '\\' := by decide

set_option maxRecDepth 4000 in
/-- Claim C2 (code bug): a malformed payload is indeed handled locally
(logged with truncation, no reply, loop continues), but a handler result
of three backslashes makes the response encoder panic, and the panic
escapes the iteration and aborts the dispatch loop. -/
theorem claim_C2_error_escapes_iteration :
    dispatchIter bsHandlers (Inbound.malformed (List.replicate 301 'x')) =
      ⟨[], some (List.replicate 299 'x' ++ (" <truncated for performance>").toList),
        false, IterOutcome.continueLoop⟩ ∧
    (dispatchIter bsHandlers (Inbound.parsed bsMsg)).outcome =
      IterOutcome.panicked ∧
    (startRun bsHandlers [Inbound.parsed bsMsg]).2 = LoopExit.panickedOut := by
  decide

/-- Claim C7: `shutdown()` closes the session and awaits teardown before
returning and before the flag is set; a callback that set the flag makes
the iteration return from `start()` with no further envelope; an
iteration returns only on that path; and the loop exits normally only when
some iteration took it. -/
theorem claim_C7_shutdown_coordination :
    (∀ ctx : MessageContext,
      MessageContext.shutdown ctx =
        ({ ctx with is_shutdown := true },
          [SessionEvent.exit, SessionEvent.waitForExit])) ∧
    (∀ (h : Handler) (ctx : MessageContext),
      (h.callback ctx).1.is_shutdown = true →
      runCallback h ctx = ⟨[], none, true, IterOutcome.returned⟩) ∧
    (∀ (handlers : Str → Option Handler) (inb : Inbound),
      (dispatchIter handlers inb).outcome = IterOutcome.returned →
      (dispatchIter handlers inb).sends = [] ∧
      ∃ m hd, inb = Inbound.parsed m ∧ handlers m.call_name = some hd ∧
        (hd.callback (MessageContext.build m)).1.is_shutdown = true) ∧
    (∀ (handlers : Str → Option Handler) (inbs : List Inbound),
      (startRun handlers inbs).2 = LoopExit.returnedNormally →
      ∃ inb ∈ inbs, (dispatchIter handlers inb).outcome = IterOutcome.returned) :=
  ⟨fun _ => rfl, runCallback_shutdown, dispatchIter_returned, startRun_returned⟩

/-- Witness for C7: a concrete handler that calls `shutdown()` — the
context records the flag after the exit/wait events, the iteration returns
with nothing sent, and the loop exit is the normal return. -/
theorem claim_C7_witness :
    MessageContext.shutdown ⟨['7'], ['s'], none, false⟩ =
      (⟨['7'], ['s'], none, true⟩,
        [SessionEvent.exit, SessionEvent.waitForExit]) ∧
    runCallback shutHandler (MessageContext.build shutMsg) =
      ⟨[], none, true, IterOutcome.returned⟩ ∧
    (∃ inb ∈ [Inbound.parsed shutMsg],
      (dispatchIter shutHandlers inb).outcome = IterOutcome.returned) :=
  ⟨claim_C7_shutdown_coordination.1 ⟨['7'], ['s'], none, false⟩,
    claim_C7_shutdown_coordination.2.1 shutHandler (MessageContext.build shutMsg) rfl,
    claim_C7_shutdown_coordination.2.2.2 shutHandlers [Inbound.parsed shutMsg] rfl⟩

/-- Unfolding `replaceChar` on a cons. -/
theorem replaceChar_cons (c : Char) (r : Str) (a : Char) (t : Str) :
    replaceChar c r (a :: t) = (if a = c then r else [a]) ++ replaceChar c r t := by
  simp [replaceChar]

/-- The map `replaceChar` distributes over append. -/
theorem replaceChar_append (c : Char) (r : Str) (s t : Str) :
    replaceChar c r (s ++ t) = replaceChar c r s ++ replaceChar c r t := by
  simp [replaceChar]

/-- The escaping pipeline distributes over append. -/
theorem cleanMessage_append (s t : Str) :
    cleanMessage (s ++ t) = cleanMessage s ++ cleanMessage t := by
  simp [cleanMessage, replaceChar_append]

/-- Claim C3 (amended): for a registered descriptor with an expected
argument count, the handler is invoked only if `arguments` is present with
exactly that length; on a present argument list of the wrong length the
handler is not invoked and the reply is the encoding of
"Incorrect number of arguments were provided for <call_name>", every sent
envelope carrying `ok = false`, with at least one envelope actually sent
provided the encoder does not panic; on absent arguments the handler is
not invoked and every sent envelope carries `ok = false`. -/
theorem claim_C3_arg_validation
    (handlers : Str → Option Handler) (m : Message) (h : Handler) (n : Nat)
    (hreg : handlers m.call_name = some h) (hcnt : h.arg_count = some n) :
    ((dispatchIter handlers (Inbound.parsed m)).invoked = true →
      ∃ args, m.arguments = some args ∧ args.length = n) ∧
    (∀ args, m.arguments = some args → args.length ≠ n →
      (dispatchIter handlers (Inbound.parsed m)).invoked = false ∧
      (dispatchIter handlers (Inbound.parsed m)).sends =
        (MessageContext.return_result m.id
          (("Incorrect number of arguments were provided for ").toList ++
            m.call_name) false).1 ∧
      (∀ c ∈ (dispatchIter handlers (Inbound.parsed m)).sends, c.ok = false) ∧
      ((MessageContext.return_result m.id
          (("Incorrect number of arguments were provided for ").toList ++
            m.call_name) false).2 = false →
        (dispatchIter handlers (Inbound.parsed m)).sends ≠ [])) ∧
    (m.arguments = none →
      (dispatchIter handlers (Inbound.parsed m)).invoked = false ∧
      (∀ c ∈ (dispatchIter handlers (Inbound.parsed m)).sends, c.ok = false)) := by
  refine ⟨?_, ?_, ?_⟩
  · intro hinv
    cases hargs : m.arguments with
    | none =>
      rw [dispatchIter_absent_args handlers m h n hreg hcnt hargs] at hinv
      simp at hinv
    | some args =>
      by_cases hlen : args.length = n
      · exact ⟨args, rfl, hlen⟩
      · rw [dispatchIter_wrong_len handlers m h n args hreg hcnt hargs hlen] at hinv
        simp at hinv
  · intro args hargs hlen
    rw [dispatchIter_wrong_len handlers m h n args hreg hcnt hargs hlen]
    have hmem : ('I') ∈ cleanMessage
        (("Incorrect number of arguments were provided for ").toList ++
          m.call_name) := by
      rw [cleanMessage_append]
      exact List.mem_append_left _ (by decide)
    have hne := trimStr_ne_nil _ _ hmem (by decide)
    dsimp only
    refine ⟨rfl, rfl, ?_, ?_⟩
    · intro c hc
      exact return_result_ok_flag _ _ _ c hc
    · intro hp
      exact return_result_ne_nil _ _ _ hne hp
  · intro hargs
    rw [dispatchIter_absent_args handlers m h n hreg hcnt hargs]
    dsimp only
    refine ⟨rfl, ?_⟩
    intro c hc
    exact return_result_ok_flag _ _ _ c hc

/-- Witness for C3 (amended): the spec's second end-to-end scenario —
`echo` registered with one expected argument, called with an empty
argument list, produces exactly the documented `ok:false` envelope and the
handler never runs. -/
theorem claim_C3_witness :
    (dispatchIter echoHandlers (Inbound.parsed echoBadMsg)).invoked = false ∧
    (dispatchIter echoHandlers (Inbound.parsed echoBadMsg)).sends =
      [⟨['2'], false,
        ("Incorrect number of arguments were provided for echo").toList, false⟩] ∧
    (dispatchIter echoHandlers (Inbound.parsed echoBadMsg)).sends ≠ [] := by
  obtain ⟨hinv, hsends, _, hnn⟩ :=
    (claim_C3_arg_validation echoHandlers echoBadMsg echoHandler 1 rfl rfl).2.1
      [] rfl (by decide)
  refine ⟨hinv, ?_, hnn (by decide)⟩
  rw [hsends]
  decide

/-- Claim C3 counterexample: a registered handler whose call name ends in
a backslash, with a required argument count, called with a wrong-length
argument list: the handler is (correctly) not invoked, but no `ok:false`
envelope is produced at all — the error reply's escaped text ends in a
backslash and the encoder panics before sending anything. -/
theorem claim_C3_counterexample :
    (dispatchIter bsNameHandlers (Inbound.parsed bsNameMsg)).invoked = false ∧
    (dispatchIter bsNameHandlers (Inbound.parsed bsNameMsg)).sends = [] ∧
    (dispatchIter bsNameHandlers (Inbound.parsed bsNameMsg)).outcome =
      IterOutcome.panicked := by decide

/-- Claim C4 (amended): a call that runs its handler and does not shut
down sends at least one envelope, exactly one of which carries
`more = false` — provided the escaped, trimmed result text is nonempty and
the encoder does not panic. -/
theorem claim_C4_single_finalization (h : Handler) (ctx : MessageContext)
    (hns : (h.callback ctx).1.is_shutdown = false)
    (hne : trimStr (cleanMessage (HandlerResult.text (h.callback ctx).2)) ≠ [])
    (hnp : (runCallback h ctx).outcome ≠ IterOutcome.panicked) :
    (runCallback h ctx).sends ≠ [] ∧
    (runCallback h ctx).sends.countP (fun c => !c.more) = 1 := by
  have hout := runCallback_outcome h ctx hns
  have hsends := runCallback_sends h ctx hns
  have hflag : (MessageContext.return_result (h.callback ctx).1.id
      (HandlerResult.text (h.callback ctx).2)
      (isOkResult (h.callback ctx).2)).2 = false := by
    by_contra hf
    rw [Bool.not_eq_false] at hf
    rw [hout, if_pos hf] at hnp
    exact hnp rfl
  have hnn := return_result_ne_nil _ _ _ hne hflag
  rcases return_result_mores _ _ _ hflag with hnil | ⟨k, hk⟩
  · exact absurd hnil hnn
  · refine ⟨?_, ?_⟩
    · rw [hsends]; exact hnn
    · rw [hsends]
      exact countP_not_more _ k hk

/-- Witness for C4 (amended): the spec's first end-to-end scenario — the
`echo` call on "hi" sends exactly one envelope and it carries
`more = false`. -/
theorem claim_C4_witness :
    (runCallback echoHandler (MessageContext.build echoOkMsg)).sends ≠ [] ∧
    (runCallback echoHandler (MessageContext.build echoOkMsg)).sends.countP
      (fun c => !c.more) = 1 :=
  claim_C4_single_finalization echoHandler (MessageContext.build echoOkMsg)
    rfl (by decide) (by decide)

/-- Claim C4 counterexample: a handler returning the empty string reaches
execution, does not shut down, the iteration completes normally — and not
a single envelope is sent, so no finalization reaches the caller. -/
theorem claim_C4_counterexample :
    (runCallback emptyResultHandler emptyResultCtx).invoked = true ∧
    (emptyResultHandler.callback emptyResultCtx).1.is_shutdown = false ∧
    (runCallback emptyResultHandler emptyResultCtx).outcome =
      IterOutcome.continueLoop ∧
    (runCallback emptyResultHandler emptyResultCtx).sends = [] := by decide

/-- Claim C8 (amended): whenever the encoder completes without panicking,
the produced chunk sequence is either empty (empty escaped result) or
carries `more = true` on every chunk except exactly the last, which
carries `more = false`. -/
theorem claim_C8_more_flags (id s : Str) (isOk : Bool)
    (hp : (MessageContext.return_result id s isOk).2 = false) :
    moresTrueExceptLast (MessageContext.return_result id s isOk).1 :=
  return_result_mores id s isOk hp

/-- Witness for C8 (amended): the single-chunk response for "hi". -/
theorem claim_C8_witness :
    moresTrueExceptLast (MessageContext.return_result ['1'] ['h', 'i'] true).1 :=
  claim_C8_more_flags ['1'] ['h', 'i'] true (by decide)

/-- The map `replaceChar` fixes a replicate of a character other than the
pattern. -/
theorem replaceChar_replicate_ne (c : Char) (r : Str) (a : Char) (h : ¬ a = c) :
    ∀ n, replaceChar c r (List.replicate n a) = List.replicate n a
  | 0 => rfl
  | n + 1 => by
    rw [List.replicate_succ, replaceChar_cons, if_neg h,
      replaceChar_replicate_ne c r a h n, List.singleton_append,
      ← List.replicate_succ]

/-- Backslash doubling on a replicate of backslashes. -/
theorem replaceChar_bs_replicate :
    ∀ n, replaceChar '\\' ['\\', '\\'] (List.replicate n '\\') =
      List.replicate (2 * n) '\\'
  | 0 => rfl
  | n + 1 => by
    rw [List.replicate_succ, replaceChar_cons, if_pos rfl,
      replaceChar_bs_replicate n,
      show 2 * (n + 1) = 2 * n + 1 + 1 from by ring,
      List.replicate_succ, List.replicate_succ]
    rfl

/-- The escaping pipeline fixes a replicate of a character that is none of
the five replaced characters. -/
theorem cleanMessage_replicate (a : Char) (n : Nat) (h1 : ¬ a = '\r')
    (h2 : ¬ a = '\x00') (h3 : ¬ a = '\\') (h4 : ¬ a = '\"') (h5 : ¬ a = '\t') :
    cleanMessage (List.replicate n a) = List.replicate n a := by
  unfold cleanMessage
  rw [replaceChar_replicate_ne _ _ _ h1, replaceChar_replicate_ne _ _ _ h2,
    replaceChar_replicate_ne _ _ _ h3, replaceChar_replicate_ne _ _ _ h4,
    replaceChar_replicate_ne _ _ _ h5]

/-- The escaping pipeline doubles a replicate of backslashes. -/
theorem cleanMessage_replicate_bs (n : Nat) :
    cleanMessage (List.replicate n '\\') = List.replicate (2 * n) '\\' := by
  unfold cleanMessage
  rw [replaceChar_replicate_ne _ _ _ (by decide),
    replaceChar_replicate_ne _ _ _ (by decide), replaceChar_bs_replicate,
    replaceChar_replicate_ne _ _ _ (by decide),
    replaceChar_replicate_ne _ _ _ (by decide)]

/-- Extension-loop evaluation: guard holds and neither of the two
characters popped from the iterator is a backslash — the loop exits. -/
theorem extendLoop_two_nonbs (total index e : Nat) (c1 c2 : Char) (r : Str)
    (h5 : 5 < e - index) (h1 : c1 ≠ '\\') (h2 : c2 ≠ '\\') :
    extendLoop total index (c1 :: c2 :: r) e = (e, false) := by
  simp [extendLoop, h5, h1, h2]

/-- Extension-loop evaluation: guard holds, the popped character is a
backslash and the extended boundary stays inside the message — one
extension step. -/
theorem extendLoop_bs_step (total index e : Nat) (rest : Str)
    (h5 : 5 < e - index) (ht : e + 1 ≤ total) :
    extendLoop total index ('\\' :: rest) e =
      extendLoop total index rest (e + 1) := by
  cases rest <;> simp [extendLoop, h5, Nat.not_lt.2 ht]

/-- Extension-loop evaluation: guard holds, the popped character is a
backslash and the extended boundary runs past the message — the slice
panics. -/
theorem extendLoop_bs_panic (total index e : Nat) (rest : Str)
    (h5 : 5 < e - index) (ht : total < e + 1) :
    extendLoop total index ('\\' :: rest) e = (e + 1, true) := by
  cases rest <;> simp [extendLoop, h5, ht]

/-- Rewriting `boundary` by the computed candidate boundary and initial
slice. -/
theorem boundary_eval (message : Str) (total index e0 : Nat) (slice : Str)
    (h1 : candidateEnd index total = e0)
    (h2 : (message.drop index).take (e0 - index) = slice) :
    boundary message total index = extendLoop total index slice.reverse e0 := by
  unfold boundary
  rw [h1, h2]

/-- One chunking iteration with a successfully resolved boundary. -/
theorem chunkLoop_step_eval (id : Str) (isOk : Bool) (message : Str)
    (total fuel index b : Nat) (hf : fuel ≠ 0) (h : index < total)
    (hb : boundary message total index = (b, false)) :
    chunkLoop id isOk message total fuel index =
      (⟨id, isOk, (message.drop index).take (b - index), decide (b < total)⟩ ::
        (chunkLoop id isOk message total (fuel - 1) b).1,
       (chunkLoop id isOk message total (fuel - 1) b).2) := by
  match fuel, hf with
  | f + 1, _ =>
    simp [chunkLoop, h, hb]

/-- One chunking iteration whose boundary resolution panics. -/
theorem chunkLoop_step_panic (id : Str) (isOk : Bool) (message : Str)
    (total fuel index b : Nat) (hf : fuel ≠ 0) (h : index < total)
    (hb : boundary message total index = (b, true)) :
    chunkLoop id isOk message total fuel index = ([], true) := by
  match fuel, hf with
  | f + 1, _ =>
    simp [chunkLoop, h, hb]

/-- The chunking loop stops once the index reaches the total length. -/
theorem chunkLoop_stop (id : Str) (isOk : Bool) (message : Str)
    (total fuel index : Nat) (hf : fuel ≠ 0) (h : ¬ index < total) :
    chunkLoop id isOk message total fuel index = ([], false) := by
  match fuel, hf with
  | f + 1, _ =>
    simp [chunkLoop, h]

/-- Claim C8 counterexample: on `c8Input` (escaped form: 25000 `a`s then
six backslashes) the encoder sends exactly one chunk, carrying
`more = true`, and then panics — a transmitted chunk sequence in which no
chunk carries `more = false`. -/
theorem claim_C8_counterexample :
    (MessageContext.return_result ['8'] c8Input true).1.map (fun c => c.more) =
      [true] ∧
    (MessageContext.return_result ['8'] c8Input true).2 = true ∧
    ¬ moresTrueExceptLast (MessageContext.return_result ['8'] c8Input true).1 := by
  have hm : trimStr (cleanMessage c8Input) =
      List.replicate 25000 'a' ++ List.replicate 6 '\\' := by
    unfold c8Input
    rw [cleanMessage_append,
      cleanMessage_replicate 'a' 25000 (by decide) (by decide) (by decide)
        (by decide) (by decide),
      cleanMessage_replicate_bs 3]
    exact trimStr_eq_self _ (by
      intro c hc
      rcases List.mem_append.1 hc with h | h <;>
        rw [List.eq_of_mem_replicate h] <;> decide)
  have hlen : ((List.replicate 25000 'a' ++ List.replicate 6 '\\') : Str).length
      = 25006 := by
    rw [List.length_append, List.length_replicate, List.length_replicate]
  have hslice1 : (((List.replicate 25000 'a' ++ List.replicate 6 '\\') : Str).drop 0).take
      (25000 - 0) = List.replicate 25000 'a' := by
    rw [List.drop_zero, List.take_append_eq_append_take, List.take_replicate,
      List.length_replicate]
    norm_num
  have hb1 : boundary (List.replicate 25000 'a' ++ List.replicate 6 '\\') 25006 0 =
      (25000, false) := by
    rw [boundary_eval _ 25006 0 25000 (List.replicate 25000 'a') (by decide) hslice1,
      List.reverse_replicate,
      show List.replicate 25000 'a' = 'a' :: 'a' :: List.replicate 24998 'a' from by
        rw [show (25000 : Nat) = 24998 + 1 + 1 from by norm_num,
          List.replicate_succ, List.replicate_succ]]
    exact extendLoop_two_nonbs 25006 0 25000 'a' 'a' _ (by norm_num)
      (by decide) (by decide)
  have hslice2 : (((List.replicate 25000 'a' ++ List.replicate 6 '\\') : Str).drop 25000).take
      (25006 - 25000) = List.replicate 6 '\\' := by
    rw [List.drop_append_eq_append_drop, List.drop_replicate, List.length_replicate]
    norm_num
  have hb2 : boundary (List.replicate 25000 'a' ++ List.replicate 6 '\\') 25006 25000 =
      (25007, true) := by
    rw [boundary_eval _ 25006 25000 25006 (List.replicate 6 '\\') (by decide) hslice2,
      List.reverse_replicate,
      show List.replicate 6 '\\' = '\\' :: List.replicate 5 '\\' from by
        rw [← List.replicate_succ]]
    exact extendLoop_bs_panic 25006 25000 25006 _ (by norm_num) (by norm_num)
  have hrun : MessageContext.return_result ['8'] c8Input true =
      ([⟨['8'], true,
          (((List.replicate 25000 'a' ++ List.replicate 6 '\\') : Str).drop 0).take
            (25000 - 0),
          decide ((25000 : Nat) < 25006)⟩], true) := by
    simp only [MessageContext.return_result]
    rw [hm, hlen,
      chunkLoop_step_eval ['8'] true _ 25006 (25006 + 1) 0 25000 (by norm_num)
        (by norm_num) hb1,
      chunkLoop_step_panic ['8'] true _ 25006 (25006 + 1 - 1) 25000 25007
        (by norm_num) (by norm_num) hb2]
  rw [hrun]
  refine ⟨by decide, rfl, ?_⟩
  intro hcontra
  rcases hcontra with hnil | ⟨k, hk⟩
  · dsimp only at hnil
    exact List.cons_ne_nil _ _ hnil
  · rcases k with _ | k
    · simp only [List.replicate_zero, List.nil_append] at hk
      exact absurd hk (by decide)
    · have hlk := congrArg List.length hk
      simp only [List.length_map, List.length_cons, List.length_append,
        List.length_replicate, List.length_nil] at hlk
      omega

/-- Claim C6 (amended): no single send carries a `message` field longer
than twice `CHUNK_SIZE`; the nominal 25000-character bound can be exceeded
when the boundary-extension loop fires (see the counterexample). -/
theorem claim_C6_chunk_bound (id s : Str) (isOk : Bool) :
    allChunksWithin (MessageContext.return_result id s isOk).1 (2 * CHUNK_SIZE) :=
  return_result_within id s isOk

/-- Witness for C6 (amended) at a concrete single-chunk response. -/
theorem claim_C6_bound_witness :
    allChunksWithin (MessageContext.return_result ['1'] ['h', 'i'] true).1
      (2 * CHUNK_SIZE) :=
  claim_C6_chunk_bound ['1'] ['h', 'i'] true

/-- Claim C6 counterexample: on `c6Input` the encoder completes without
panicking and sends two chunks of 25002 and 8 characters — the first one
exceeds the fixed chunk size of 25000 characters. -/
theorem claim_C6_counterexample :
    (MessageContext.return_result ['6'] c6Input true).2 = false ∧
    chunkLengths (MessageContext.return_result ['6'] c6Input true).1 =
      [25002, 8] ∧
    ¬ allChunksWithin (MessageContext.return_result ['6'] c6Input true).1
      CHUNK_SIZE := by
  have hX : ((List.replicate 24998 'a' ++ ['\\', '\\']) : Str).length = 25000 := by
    rw [List.length_append, List.length_replicate]
    norm_num
  have hm : trimStr (cleanMessage c6Input) = c6Escaped := by
    unfold c6Input c6Escaped
    rw [cleanMessage_append, cleanMessage_append,
      cleanMessage_replicate 'a' 24998 (by decide) (by decide) (by decide)
        (by decide) (by decide),
      cleanMessage_replicate 'b' 10 (by decide) (by decide) (by decide)
        (by decide) (by decide),
      show cleanMessage ['\\'] = ['\\', '\\'] from by decide]
    exact trimStr_eq_self _ (by
      intro c hc
      rcases List.mem_append.1 hc with h | h
      · rcases List.mem_append.1 h with h2 | h2
        · rw [List.eq_of_mem_replicate h2]; decide
        · have hc2 : c = '\\' := by simpa using h2
          rw [hc2]; decide
      · rw [List.eq_of_mem_replicate h]; decide)
  have hlen : (c6Escaped : Str).length = 25010 := by
    unfold c6Escaped
    rw [List.length_append, hX, List.length_replicate]
  have hslice1 : ((c6Escaped : Str).drop 0).take (25000 - 0) =
      List.replicate 24998 'a' ++ ['\\', '\\'] := by
    unfold c6Escaped
    rw [List.drop_zero, List.take_append_eq_append_take, hX,
      List.take_of_length_le (le_of_eq hX)]
    norm_num
  have hb1 : boundary c6Escaped 25010 0 = (25002, false) := by
    rw [boundary_eval _ 25010 0 25000 (List.replicate 24998 'a' ++ ['\\', '\\'])
        (by decide) hslice1,
      List.reverse_append, List.reverse_replicate,
      show ((['\\', '\\'] : Str)).reverse = ['\\', '\\'] from by decide]
    simp only [List.cons_append, List.nil_append]
    rw [extendLoop_bs_step 25010 0 25000 _ (by norm_num) (by norm_num),
      extendLoop_bs_step 25010 0 25001 _ (by norm_num) (by norm_num),
      show List.replicate 24998 'a' = 'a' :: 'a' :: List.replicate 24996 'a' from by
        rw [show (24998 : Nat) = 24996 + 1 + 1 from by norm_num,
          List.replicate_succ, List.replicate_succ]]
    exact extendLoop_two_nonbs 25010 0 25002 'a' 'a' _ (by norm_num)
      (by decide) (by decide)
  have hslice2 : ((c6Escaped : Str).drop 25002).take (25010 - 25002) =
      List.replicate 8 'b' := by
    unfold c6Escaped
    rw [List.drop_append_eq_append_drop, hX,
      List.drop_eq_nil_of_le (by rw [hX]; norm_num)]
    norm_num [List.drop_replicate, List.take_replicate]
  have hb2 : boundary c6Escaped 25010 25002 = (25010, false) := by
    rw [boundary_eval _ 25010 25002 25010 (List.replicate 8 'b') (by decide) hslice2,
      List.reverse_replicate,
      show List.replicate 8 'b' = 'b' :: 'b' :: List.replicate 6 'b' from by
        rw [show (8 : Nat) = 6 + 1 + 1 from by norm_num,
          List.replicate_succ, List.replicate_succ]]
    exact extendLoop_two_nonbs 25010 25002 25010 'b' 'b' _ (by norm_num)
      (by decide) (by decide)
  have hrun : MessageContext.return_result ['6'] c6Input true =
      ([⟨['6'], true, ((c6Escaped : Str).drop 0).take (25002 - 0),
          decide ((25002 : Nat) < 25010)⟩,
        ⟨['6'], true, ((c6Escaped : Str).drop 25002).take (25010 - 25002),
          decide ((25010 : Nat) < 25010)⟩], false) := by
    simp only [MessageContext.return_result]
    rw [hm, hlen,
      chunkLoop_step_eval ['6'] true _ 25010 (25010 + 1) 0 25002 (by norm_num)
        (by norm_num) hb1,
      chunkLoop_step_eval ['6'] true _ 25010 (25010 + 1 - 1) 25002 25010
        (by norm_num) (by norm_num) hb2,
      chunkLoop_stop ['6'] true _ 25010 (25010 + 1 - 1 - 1) 25010 (by norm_num)
        (by omega)]
  have hlens : chunkLengths (MessageContext.return_result ['6'] c6Input true).1 =
      [25002, 8] := by
    rw [hrun]
    simp only [chunkLengths, List.map_cons, List.map_nil, List.length_take,
      List.length_drop, hlen]
    norm_num [Nat.min_def]
  refine ⟨by rw [hrun], hlens, ?_⟩
  intro hall
  have hm2 : (25002 : Nat) ∈
      chunkLengths (MessageContext.return_result ['6'] c6Input true).1 := by
    rw [hlens]
    exact List.mem_cons_self _ _
  simp only [chunkLengths] at hm2
  obtain ⟨c, hc, hcl⟩ := List.mem_map.1 hm2
  have hle := hall c hc
  rw [hcl] at hle
  unfold CHUNK_SIZE at hle
  omega

end NxRequestHandler
